import Mathlib

/-! GDPR permission engine (`gdpr/impl.go`)

A shallow embedding of the consent-to-permission decision engine of
`gdpr/impl.go`, followed by theorems about it.

Conventions of the embedding

* Go interfaces whose methods the engine only reads (`tcf2.ConsentMetadata`,
  `api.Vendor`, `api.VendorList`, `TCF2ConfigReader`) are records of pure
  functions, one field per method the engine calls.
* `consentconstants.Purpose` (a `uint8`), `uint8` restriction types and
  `uint16` vendor ids are natural numbers; the engine does no arithmetic on
  them apart from the conversion `uint16(p.hostVendorID)`, which is written
  with an explicit `% 65536`.
* A Go `map[K]V` is a function `K → Option V`; the comma-ok lookup `m[k]`
  is a `match` on it.
* A Go result `(T, error)` of the engine is a pair `T × Option GoError`
  (`none` is the `nil` error), because the engine returns a meaningful value
  next to a non-nil error.  The two collaborators that are called but not
  defined in this file, the decoder `vendorconsent.ParseString` and the
  fetcher `fetchVendorList`, return `Except GoError _`.
-/

namespace Gdpr

/-! ## Data model -/

/-- Go `error` values the engine creates or passes on: `errors.New` /
`fmt.Errorf` messages, and `*ErrorMalformedConsent{Consent, Cause}`. -/
inductive GoError where
  | errorString (msg : String)
  | ErrorMalformedConsent (Consent : String) (Cause : GoError)
deriving DecidableEq, Repr

/-- The request-scoped `context.Context`.  The engine hands it through to the
vendor-list fetcher and never inspects it, so it is an uninterpreted token. -/
structure Context where
  token : Nat
deriving DecidableEq, Repr

/-- Modelled from the spec: the `Signal` type and its constants are declared
outside `impl.go`; the spec lists the applicability signal as the enumeration
Applies (`SignalYes`), DoesNotApply (`SignalNo`), Ambiguous
(`SignalAmbiguous`). -/
inductive Signal where
  | SignalAmbiguous
  | SignalNo
  | SignalYes
deriving DecidableEq, Repr

open Signal

/-- The result record `AuctionPermissions`; `impl.go` uses exactly these three
boolean fields. -/
structure AuctionPermissions where
  AllowBidRequest : Bool
  PassGeo : Bool
  PassID : Bool
deriving DecidableEq, Repr

/-- Modelled from the spec: the constant `AllowAll`, declared outside
`impl.go`, is `{true,true,true}`. -/
def AllowAll : AuctionPermissions := ⟨true, true, true⟩

/-- Modelled from the spec: the constant `DenyAll`, declared outside
`impl.go`, is `{false,false,false}`. -/
def DenyAll : AuctionPermissions := ⟨false, false, false⟩

/-- Modelled from the spec: the constant `AllowBidRequestOnly`, declared
outside `impl.go`, is `{true,false,false}`. -/
def AllowBidRequestOnly : AuctionPermissions := ⟨true, false, false⟩

/-- The interface `api.Vendor` (a vendor capability entry). -/
structure Vendor where
  Purpose : Nat → Bool
  PurposeStrict : Nat → Bool
  LegitimateInterest : Nat → Bool
  LegitimateInterestStrict : Nat → Bool
  SpecialFeature : Nat → Bool
  SpecialPurpose : Nat → Bool

/-- The type `vendorTrue`, which "claims everything": each of its six methods
returns `true`. -/
def vendorTrue : Vendor where
  Purpose := fun _ => true
  PurposeStrict := fun _ => true
  LegitimateInterest := fun _ => true
  LegitimateInterestStrict := fun _ => true
  SpecialFeature := fun _ => true
  SpecialPurpose := fun _ => true

/-- The interface `api.VendorList`: `Vendor(id)` is `nil` (`none`) when the
list has no entry. -/
structure VendorList where
  Vendor : Nat → Option Vendor

/-- The methods of `tcf2.ConsentMetadata` that the engine calls on the value
obtained by the type assertion `parsedConsent.(tcf2.ConsentMetadata)`.
`CheckPubRestriction purpose restrictType vendor` keeps the argument order of
the Go method. -/
structure ConsentMetadata where
  CheckPubRestriction : Nat → Nat → Nat → Bool
  PurposeAllowed : Nat → Bool
  PurposeLITransparency : Nat → Bool
  VendorConsent : Nat → Bool
  VendorLegitInterest : Nat → Bool
  SpecialFeatureOptIn : Nat → Bool
  PurposeOneTreatment : Bool

/-- The interface `api.VendorConsents` as the engine uses it: the two methods
it calls, and the outcome of the type assertion to `tcf2.ConsentMetadata`
(`none` when the assertion fails). -/
structure VendorConsents where
  Version : Nat
  VendorListVersion : Nat
  asConsentMetadata : Option ConsentMetadata

/-- The interface `TCF2ConfigReader`, restricted to the methods `impl.go`
calls.  Bidder names are strings. -/
structure TCF2ConfigReader where
  BasicEnforcementVendor : String → Bool
  FeatureOneEnforced : Bool
  FeatureOneVendorException : String → Bool
  IsEnabled : Bool
  PurposeEnforced : Nat → Bool
  PurposeEnforcingVendors : Nat → Bool
  PurposeVendorException : Nat → String → Bool
  PurposeOneTreatmentEnabled : Bool
  PurposeOneTreatmentAccessAllowed : Bool

/-- The function type `VendorListFetcher`: context and vendor-list version to
a vendor list or an error. -/
abbrev VendorListFetcher := Context → Nat → Except GoError VendorList

/-- The decoder `vendorconsent.ParseString` of the go-gdpr library, a
parameter of the engine. -/
abbrev ConsentDecoder := String → Except GoError VendorConsents

/-- The struct `permissionsImpl`, field for field. -/
structure permissionsImpl where
  fetchVendorList : VendorListFetcher
  gdprDefaultValue : String
  hostVendorID : Int
  nonStandardPublishers : String → Option Unit
  cfg : TCF2ConfigReader
  vendorIDs : String → Option Nat
  consent : String
  gdprSignal : Signal
  publisherID : String
  aliasGVLIDs : String → Option Nat

/-! ## The evaluator: `checkPurpose` and its two sub-rules -/

def pubRestrictNotAllowed : Nat := 0
def pubRestrictRequireConsent : Nat := 1
def pubRestrictRequireLegitInterest : Nat := 2

/-- The constant `tcf2ConsentConstants.InfoStorageAccess` of go-gdpr: purpose 1. -/
def InfoStorageAccess : Nat := 1

/-- The method `consentEstablished`. -/
def consentEstablished (_p : permissionsImpl) (consent : ConsentMetadata) (vendor : Vendor)
    (vendorID : Nat) (purpose : Nat) (enforceVendors weakVendorEnforcement : Bool) : Bool :=
  if !consent.PurposeAllowed purpose then
    false
  else if weakVendorEnforcement then
    true
  else if !enforceVendors then
    true
  else if vendor.Purpose purpose && consent.VendorConsent vendorID then
    true
  else
    false

/-- The method `legitInterestEstablished`. -/
def legitInterestEstablished (_p : permissionsImpl) (consent : ConsentMetadata) (vendor : Vendor)
    (vendorID : Nat) (purpose : Nat) (enforceVendors weakVendorEnforcement : Bool) : Bool :=
  if !consent.PurposeLITransparency purpose then
    false
  else if weakVendorEnforcement then
    true
  else if !enforceVendors then
    true
  else if vendor.LegitimateInterest purpose && consent.VendorLegitInterest vendorID then
    true
  else
    false

/-- The method `checkPurpose`. -/
def checkPurpose (p : permissionsImpl) (consent : ConsentMetadata) (vendor : Vendor)
    (vendorID : Nat) (purpose : Nat) (enforceVendors vendorException weakVendorEnforcement : Bool) :
    Bool :=
  if consent.CheckPubRestriction purpose pubRestrictNotAllowed vendorID then
    false
  else if vendorException then
    true
  else
    let purposeAllowed :=
      consentEstablished p consent vendor vendorID purpose enforceVendors weakVendorEnforcement
    let legitInterest :=
      legitInterestEstablished p consent vendor vendorID purpose enforceVendors weakVendorEnforcement
    if consent.CheckPubRestriction purpose pubRestrictRequireConsent vendorID then
      purposeAllowed
    else if consent.CheckPubRestriction purpose pubRestrictRequireLegitInterest vendorID then
      legitInterest
    else
      purposeAllowed || legitInterest

/-! ## The engine -/

/-- The method `defaultPermissions`. -/
def defaultPermissions (p : permissionsImpl) : AuctionPermissions :=
  let perms : AuctionPermissions := ⟨false, false, false⟩
  let perms := if !p.cfg.PurposeEnforced 2 then { perms with AllowBidRequest := true } else perms
  let perms := if !p.cfg.FeatureOneEnforced then { perms with PassGeo := true } else perms
  perms

/-- The method `resolveVendorId`: the pair `(id, ok)`; a failed lookup in the
core table leaves `id` at the zero value. -/
def resolveVendorId (p : permissionsImpl) (bidderCoreName bidder : String) : Nat × Bool :=
  match p.aliasGVLIDs bidder with
  | some id => (id, true)
  | none =>
    match p.vendorIDs bidderCoreName with
    | some id => (id, true)
    | none => (0, false)

/-- The method `parseVendor`.  An error result carries the error alone: both
callers return at once on a non-nil error and read neither of the other two
results. -/
def parseVendor (ParseString : ConsentDecoder) (p : permissionsImpl) (ctx : Context)
    (vendorID : Nat) (consent : String) : Except GoError (VendorConsents × Option Vendor) :=
  match ParseString consent with
  | .error err => .error (GoError.ErrorMalformedConsent consent err)
  | .ok parsedConsent =>
    let version := parsedConsent.Version
    if version ≠ 2 then
      .ok (parsedConsent, none)
    else
      match p.fetchVendorList ctx parsedConsent.VendorListVersion with
      | .error err => .error err
      | .ok vendorList => .ok (parsedConsent, vendorList.Vendor vendorID)

/-- The method `allowSync`. -/
def allowSync (ParseString : ConsentDecoder) (p : permissionsImpl) (ctx : Context)
    (vendorID : Nat) (vendorException : Bool) : Bool × Option GoError :=
  if p.consent = "" then
    (false, none)
  else
    match parseVendor ParseString p ctx vendorID p.consent with
    | .error err => (false, some err)
    | .ok (_, none) => (false, none)
    | .ok (parsedConsent, some vendor) =>
      if !p.cfg.PurposeEnforced 1 then
        (true, none)
      else
        match parsedConsent.asConsentMetadata with
        | none => (false, some (GoError.errorString "Unable to access TCF2 parsed consent"))
        | some consentMeta =>
          if p.cfg.PurposeOneTreatmentEnabled && consentMeta.PurposeOneTreatment then
            (p.cfg.PurposeOneTreatmentAccessAllowed, none)
          else
            let enforceVendors := p.cfg.PurposeEnforcingVendors InfoStorageAccess
            (checkPurpose p consentMeta vendor vendorID InfoStorageAccess enforceVendors
              vendorException false, none)

/-- The loop `for i := 2; i <= 10; i++ { ... }` of `allowActivities`, from the
counter value `i`, on the permissions built so far.  `fuel` bounds the number
of iterations; the loop is entered with `i = 2`, so nine iterations reach the
exit test. -/
def passIDLoop (chk : Nat → Bool) : Nat → Nat → AuctionPermissions → AuctionPermissions
  | 0, _, permissions => permissions
  | fuel + 1, i, permissions =>
    if i ≤ 10 then
      if chk i then
        { permissions with PassID := true }
      else
        passIDLoop chk fuel (i + 1) permissions
    else
      permissions

/-- The method `allowActivities`. -/
def allowActivities (ParseString : ConsentDecoder) (p : permissionsImpl) (ctx : Context)
    (vendorID : Nat) (bidder : String) (weakVendorEnforcement : Bool) :
    AuctionPermissions × Option GoError :=
  match parseVendor ParseString p ctx vendorID p.consent with
  | .error err => (defaultPermissions p, some err)
  | .ok (parsedConsent, vendorOrNil) =>
    let vendorOrNil : Option Vendor :=
      match vendorOrNil with
      | some vendor => some vendor
      | none =>
        if weakVendorEnforcement && parsedConsent.Version == 2 then some vendorTrue else none
    match vendorOrNil with
    | none => (defaultPermissions p, none)
    | some vendor =>
      if !p.cfg.IsEnabled then
        (AllowBidRequestOnly, none)
      else
        match parsedConsent.asConsentMetadata with
        | none =>
          (defaultPermissions p, some (GoError.errorString "Unable to access TCF2 parsed consent"))
        | some consentMeta =>
          let permissions : AuctionPermissions := ⟨false, false, false⟩
          let permissions :=
            if p.cfg.FeatureOneEnforced then
              let vendorException := p.cfg.FeatureOneVendorException bidder
              { permissions with
                PassGeo := vendorException ||
                  (consentMeta.SpecialFeatureOptIn 1 &&
                    (vendor.SpecialFeature 1 || weakVendorEnforcement)) }
            else
              { permissions with PassGeo := true }
          let permissions :=
            if p.cfg.PurposeEnforced 2 then
              let enforceVendors := p.cfg.PurposeEnforcingVendors 2
              let vendorException := p.cfg.PurposeVendorException 2 bidder
              { permissions with
                AllowBidRequest := checkPurpose p consentMeta vendor vendorID 2 enforceVendors
                  vendorException weakVendorEnforcement }
            else
              { permissions with AllowBidRequest := true }
          let permissions :=
            passIDLoop
              (fun i => checkPurpose p consentMeta vendor vendorID i
                (p.cfg.PurposeEnforcingVendors i) (p.cfg.PurposeVendorException i bidder)
                weakVendorEnforcement)
              9 2 permissions
          (permissions, none)

/-- The method `HostCookiesAllowed`. -/
def HostCookiesAllowed (ParseString : ConsentDecoder) (p : permissionsImpl) (ctx : Context) :
    Bool × Option GoError :=
  if p.gdprSignal ≠ SignalYes then
    (true, none)
  else
    allowSync ParseString p ctx (p.hostVendorID % 65536).toNat false

/-- The method `BidderSyncAllowed`. -/
def BidderSyncAllowed (ParseString : ConsentDecoder) (p : permissionsImpl) (ctx : Context)
    (bidder : String) : Bool × Option GoError :=
  if p.gdprSignal ≠ SignalYes then
    (true, none)
  else
    match p.vendorIDs bidder with
    | some id =>
      let vendorException := p.cfg.PurposeVendorException 1 bidder
      allowSync ParseString p ctx id vendorException
    | none => (false, none)

/-- The method `AuctionActivitiesAllowed`. -/
def AuctionActivitiesAllowed (ParseString : ConsentDecoder) (p : permissionsImpl) (ctx : Context)
    (bidderCoreName bidder : String) : AuctionPermissions × Option GoError :=
  if (p.nonStandardPublishers p.publisherID).isSome then
    (AllowAll, none)
  else if p.gdprSignal ≠ SignalYes then
    (AllowAll, none)
  else if p.consent = "" then
    (defaultPermissions p, none)
  else
    let weakVendorEnforcement := p.cfg.BasicEnforcementVendor bidder
    match resolveVendorId p bidderCoreName bidder with
    | (id, true) => allowActivities ParseString p ctx id bidderCoreName weakVendorEnforcement
    | (_, false) =>
      if weakVendorEnforcement then
        allowActivities ParseString p ctx 0 bidderCoreName weakVendorEnforcement
      else
        (DenyAll, none)

/-! ## Specification-side views and sample values -/

/-- Specification-side view used to state the symmetry of the two sub-rules:
the metadata whose `PurposeAllowed` answers with `PurposeLITransparency` and
whose `VendorConsent` answers with `VendorLegitInterest`; all other answers
are kept. -/
def legitInterestMetadataView (consent : ConsentMetadata) : ConsentMetadata :=
  { consent with
    PurposeAllowed := consent.PurposeLITransparency
    VendorConsent := consent.VendorLegitInterest }

/-- Specification-side view used to state the symmetry of the two sub-rules:
the vendor capability whose `Purpose` answers with `LegitimateInterest`. -/
def legitInterestVendorView (vendor : Vendor) : Vendor :=
  { vendor with Purpose := vendor.LegitimateInterest }

/-- Sample metadata: the three publisher-restriction types answer `r0`, `r1`,
`r2` for every purpose and vendor; the purpose and vendor bits are constant. -/
def sampleConsent (r0 r1 r2 purposeAllowed liTransparency vendorConsent vendorLI : Bool) :
    ConsentMetadata where
  CheckPubRestriction := fun _ restrictType _ =>
    match restrictType with
    | 0 => r0
    | 1 => r1
    | 2 => r2
    | _ => false
  PurposeAllowed := fun _ => purposeAllowed
  PurposeLITransparency := fun _ => liTransparency
  VendorConsent := fun _ => vendorConsent
  VendorLegitInterest := fun _ => vendorLI
  SpecialFeatureOptIn := fun _ => false
  PurposeOneTreatment := false

/-- Sample vendor capability that claims nothing. -/
def vendorFalse : Vendor where
  Purpose := fun _ => false
  PurposeStrict := fun _ => false
  LegitimateInterest := fun _ => false
  LegitimateInterestStrict := fun _ => false
  SpecialFeature := fun _ => false
  SpecialPurpose := fun _ => false

/-- Sample configuration: enabled, every purpose and feature one enforced,
vendors enforced, no exception, no basic-enforcement bidder. -/
def sampleConfig : TCF2ConfigReader where
  BasicEnforcementVendor := fun _ => false
  FeatureOneEnforced := true
  FeatureOneVendorException := fun _ => false
  IsEnabled := true
  PurposeEnforced := fun _ => true
  PurposeEnforcingVendors := fun _ => true
  PurposeVendorException := fun _ _ => false
  PurposeOneTreatmentEnabled := false
  PurposeOneTreatmentAccessAllowed := false

/-- Sample decoded consent of format version 2 exposing the metadata `m`. -/
def sampleParsed (m : ConsentMetadata) : VendorConsents where
  Version := 2
  VendorListVersion := 1
  asConsentMetadata := some m

/-- Sample vendor list with the single entry `vendor` at id 7. -/
def sampleVendorList (vendor : Vendor) : VendorList where
  Vendor := fun id => if id = 7 then some vendor else none

/-- Sample engine: empty tables, host vendor 7, no exempt publisher. -/
def sampleImpl (signal : Signal) (consent : String) : permissionsImpl where
  fetchVendorList := fun _ _ => .ok (sampleVendorList vendorFalse)
  gdprDefaultValue := "1"
  hostVendorID := 7
  nonStandardPublishers := fun _ => none
  cfg := sampleConfig
  vendorIDs := fun _ => none
  consent := consent
  gdprSignal := signal
  publisherID := "pub"
  aliasGVLIDs := fun _ => none

/-- Sample decoder that rejects every string. -/
def rejectingDecoder : ConsentDecoder :=
  fun _ => .error (GoError.errorString "decode failure")

/-- Sample decoder that accepts every string as version 2 with metadata `m`. -/
def acceptingDecoder (m : ConsentMetadata) : ConsentDecoder :=
  fun _ => .ok (sampleParsed m)

/-- Sample metadata without publisher restrictions in which purpose 5 alone
is consented, vendor 7 has vendor consent, and nothing else is set. -/
def purposeFiveConsent : ConsentMetadata where
  CheckPubRestriction := fun _ _ _ => false
  PurposeAllowed := fun purpose => purpose == 5
  PurposeLITransparency := fun _ => false
  VendorConsent := fun vendorID => vendorID == 7
  VendorLegitInterest := fun _ => false
  SpecialFeatureOptIn := fun _ => false
  PurposeOneTreatment := false

/-- Sample fetcher that always fails. -/
def failingFetcher : VendorListFetcher :=
  fun _ _ => .error (GoError.errorString "vendor list unavailable")

/-- Specification-side definition, after the spec's auction-activities path:
the permissions of the per-purpose cascade for a given metadata, vendor
capability, vendor id, bidder and weak-enforcement flag.  `PassGeo` and
`AllowBidRequest` are the spec's two formulas; `PassID` is the disjunction of
`checkPurpose` over the purposes 2..10. -/
def cascadePermissions (p : permissionsImpl) (consentMeta : ConsentMetadata) (vendor : Vendor)
    (vendorID : Nat) (bidder : String) (weakVendorEnforcement : Bool) : AuctionPermissions where
  AllowBidRequest :=
    if p.cfg.PurposeEnforced 2 then
      checkPurpose p consentMeta vendor vendorID 2 (p.cfg.PurposeEnforcingVendors 2)
        (p.cfg.PurposeVendorException 2 bidder) weakVendorEnforcement
    else true
  PassGeo :=
    if p.cfg.FeatureOneEnforced then
      p.cfg.FeatureOneVendorException bidder ||
        (consentMeta.SpecialFeatureOptIn 1 && (vendor.SpecialFeature 1 || weakVendorEnforcement))
    else true
  PassID :=
    (List.range' 2 9).any fun purpose =>
      checkPurpose p consentMeta vendor vendorID purpose (p.cfg.PurposeEnforcingVendors purpose)
        (p.cfg.PurposeVendorException purpose bidder) weakVendorEnforcement

/-- Sample metadata that signals purpose-one treatment and sets no consent,
legitimate-interest or vendor bit; restriction type 0 is reported for every
purpose and vendor. -/
def treatmentConsent : ConsentMetadata where
  CheckPubRestriction := fun _ restrictType _ => restrictType == 0
  PurposeAllowed := fun _ => false
  PurposeLITransparency := fun _ => false
  VendorConsent := fun _ => false
  VendorLegitInterest := fun _ => false
  SpecialFeatureOptIn := fun _ => false
  PurposeOneTreatment := true

/-- Sample decoded consent that reports format version 2 and fails the type
assertion to `tcf2.ConsentMetadata`. -/
def untypedParsed : VendorConsents where
  Version := 2
  VendorListVersion := 1
  asConsentMetadata := none

/-- Sample decoder that accepts every string as `untypedParsed`. -/
def untypedDecoder : ConsentDecoder :=
  fun _ => .ok untypedParsed

/-- Sample configuration with purpose-one treatment enabled and access under
treatment allowed; everything else as in `sampleConfig`. -/
def treatmentConfig : TCF2ConfigReader :=
  { sampleConfig with
    PurposeOneTreatmentEnabled := true
    PurposeOneTreatmentAccessAllowed := true }

/-- Sample configuration in which purpose 1 is not enforced; everything else
as in `sampleConfig`. -/
def purposeOneFreeConfig : TCF2ConfigReader :=
  { sampleConfig with PurposeEnforced := fun purpose => purpose != 1 }

/-- The error built by `errors.New` / `fmt.Errorf` when the type assertion to
`tcf2.ConsentMetadata` fails. -/
def errUnableToAccess : GoError :=
  GoError.errorString "Unable to access TCF2 parsed consent"

/-- Sample engine for a basic-enforcement bidder: as `sampleImpl` with the
signal applying and consent "c", and every bidder under basic enforcement. -/
def basicEnforcementImpl : permissionsImpl :=
  { sampleImpl SignalYes "c" with
    cfg := { sampleConfig with BasicEnforcementVendor := fun _ => true } }

/-! ## Theorems: the evaluator -/

/-- C1: if the metadata reports the publisher restriction NotAllowed (type 0)
for the purpose and vendor, `checkPurpose` returns false, whatever the
vendor capability, the consent and legitimate-interest bits, `enforceVendors`,
`vendorException` and `weakVendorEnforcement` are. -/
theorem checkPurpose_notAllowed (p : permissionsImpl) (consent : ConsentMetadata)
    (vendor : Vendor) (vendorID purpose : Nat)
    (enforceVendors vendorException weakVendorEnforcement : Bool)
    (h : consent.CheckPubRestriction purpose pubRestrictNotAllowed vendorID = true) :
    checkPurpose p consent vendor vendorID purpose enforceVendors vendorException
      weakVendorEnforcement = false := by
  simp [checkPurpose, h]

/-- Witness of C1: restriction type 0 set together with every permissive bit
and a vendor exception. -/
theorem checkPurpose_notAllowed_witness :
    (sampleConsent true false false true true true true).CheckPubRestriction 3
        pubRestrictNotAllowed 7 = true ∧
      checkPurpose (sampleImpl SignalYes "c")
        (sampleConsent true false false true true true true) vendorTrue 7 3 false true true
        = false :=
  ⟨rfl, checkPurpose_notAllowed _ _ _ 7 3 false true true rfl⟩

/-- C2: a vendor exception makes `checkPurpose` return true as soon as the
restriction NotAllowed is not reported for the purpose and vendor, whatever
the other bits and the other restriction types are. -/
theorem checkPurpose_vendorException (p : permissionsImpl) (consent : ConsentMetadata)
    (vendor : Vendor) (vendorID purpose : Nat) (enforceVendors weakVendorEnforcement : Bool)
    (h : consent.CheckPubRestriction purpose pubRestrictNotAllowed vendorID = false) :
    checkPurpose p consent vendor vendorID purpose enforceVendors true
      weakVendorEnforcement = true := by
  simp [checkPurpose, h]

/-- Witness of C2: no consent bit at all, a vendor that claims nothing, both
other restriction types reported. -/
theorem checkPurpose_vendorException_witness :
    (sampleConsent false true true false false false false).CheckPubRestriction 4
        pubRestrictNotAllowed 9 = false ∧
      checkPurpose (sampleImpl SignalYes "c")
        (sampleConsent false true true false false false false) vendorFalse 9 4 true true false
        = true :=
  ⟨rfl, checkPurpose_vendorException _ _ _ 9 4 true false rfl⟩

/-- C3 as stated fails: with restriction types 1 (RequireConsent) and 2
(RequireLegitimateInterest) both reported for purpose 2 and vendor 7, type 0
not reported and no vendor exception, `checkPurpose` returns the consent
result (false) and not the legitimate-interest result (true). -/
theorem checkPurpose_requireLegitInterest_counterexample :
    (sampleConsent false true true false true false false).CheckPubRestriction 2
        pubRestrictNotAllowed 7 = false ∧
      (sampleConsent false true true false true false false).CheckPubRestriction 2
        pubRestrictRequireLegitInterest 7 = true ∧
      checkPurpose (sampleImpl SignalYes "c")
        (sampleConsent false true true false true false false) vendorTrue 7 2 false false true
        = false ∧
      legitInterestEstablished (sampleImpl SignalYes "c")
        (sampleConsent false true true false true false false) vendorTrue 7 2 false true
        = true := by
  decide

/-- C3 amended: with NotAllowed not reported and no vendor exception,
`checkPurpose` returns the consent result alone if RequireConsent is reported,
the legitimate-interest result alone if RequireLegitimateInterest is reported
and RequireConsent is not, and the disjunction of the two when neither is
reported. -/
theorem checkPurpose_cascade (p : permissionsImpl) (consent : ConsentMetadata)
    (vendor : Vendor) (vendorID purpose : Nat) (enforceVendors weakVendorEnforcement : Bool)
    (h : consent.CheckPubRestriction purpose pubRestrictNotAllowed vendorID = false) :
    (consent.CheckPubRestriction purpose pubRestrictRequireConsent vendorID = true →
        checkPurpose p consent vendor vendorID purpose enforceVendors false
          weakVendorEnforcement
        = consentEstablished p consent vendor vendorID purpose enforceVendors
            weakVendorEnforcement) ∧
      (consent.CheckPubRestriction purpose pubRestrictRequireConsent vendorID = false →
        consent.CheckPubRestriction purpose pubRestrictRequireLegitInterest vendorID = true →
        checkPurpose p consent vendor vendorID purpose enforceVendors false
          weakVendorEnforcement
        = legitInterestEstablished p consent vendor vendorID purpose enforceVendors
            weakVendorEnforcement) ∧
      (consent.CheckPubRestriction purpose pubRestrictRequireConsent vendorID = false →
        consent.CheckPubRestriction purpose pubRestrictRequireLegitInterest vendorID = false →
        checkPurpose p consent vendor vendorID purpose enforceVendors false
          weakVendorEnforcement
        = (consentEstablished p consent vendor vendorID purpose enforceVendors
            weakVendorEnforcement ||
          legitInterestEstablished p consent vendor vendorID purpose enforceVendors
            weakVendorEnforcement)) := by
  refine ⟨?_, ?_, ?_⟩
  · intro h1
    simp [checkPurpose, h, h1]
  · intro h1 h2
    simp [checkPurpose, h, h1, h2]
  · intro h1 h2
    simp [checkPurpose, h, h1, h2]

/-- Witness of the amended C3: only RequireLegitimateInterest reported; the
purpose is consented but has no legitimate-interest transparency, and the
result is the legitimate-interest one. -/
theorem checkPurpose_cascade_witness :
    (sampleConsent false false true true false true true).CheckPubRestriction 2
        pubRestrictNotAllowed 7 = false ∧
      checkPurpose (sampleImpl SignalYes "c")
        (sampleConsent false false true true false true true) vendorTrue 7 2 true false false
        = legitInterestEstablished (sampleImpl SignalYes "c")
            (sampleConsent false false true true false true true) vendorTrue 7 2 true false :=
  ⟨rfl, (checkPurpose_cascade _ _ _ 7 2 true false rfl).2.1 rfl rfl⟩

/-- C4: `consentEstablished` equals
`PurposeAllowed(p) AND (weak OR NOT enforceVendors OR (vendor.Purpose(p) AND VendorConsent(v)))`. -/
theorem consentEstablished_eq (p : permissionsImpl) (consent : ConsentMetadata)
    (vendor : Vendor) (vendorID purpose : Nat) (enforceVendors weakVendorEnforcement : Bool) :
    consentEstablished p consent vendor vendorID purpose enforceVendors weakVendorEnforcement
      = (consent.PurposeAllowed purpose &&
          (weakVendorEnforcement || !enforceVendors ||
            (vendor.Purpose purpose && consent.VendorConsent vendorID))) := by
  unfold consentEstablished
  cases consent.PurposeAllowed purpose <;> cases weakVendorEnforcement <;>
    cases enforceVendors <;> cases vendor.Purpose purpose <;>
    cases consent.VendorConsent vendorID <;> rfl

/-- C5: `legitInterestEstablished` is `consentEstablished` evaluated on the
metadata and vendor capability in which `PurposeAllowed`, `VendorConsent` and
`vendor.Purpose` are replaced by `PurposeLITransparency`,
`VendorLegitInterest` and `vendor.LegitimateInterest`. -/
theorem legitInterestEstablished_symmetric (p : permissionsImpl) (consent : ConsentMetadata)
    (vendor : Vendor) (vendorID purpose : Nat) (enforceVendors weakVendorEnforcement : Bool) :
    legitInterestEstablished p consent vendor vendorID purpose enforceVendors
        weakVendorEnforcement
      = consentEstablished p (legitInterestMetadataView consent)
          (legitInterestVendorView vendor) vendorID purpose enforceVendors
          weakVendorEnforcement := by
  rfl

/-! ## Theorems: the engine -/

/-- C6: when the signal is not `SignalYes`, the three public operations
return full allow with a nil error, for every decoder, engine value (so every
consent string, fetcher, configuration and table), context and bidder: the
result is a constant, hence independent of decoder and fetcher. -/
theorem signal_not_yes_full_allow (ParseString : ConsentDecoder) (p : permissionsImpl)
    (ctx : Context) (bidderCoreName bidder : String) (h : p.gdprSignal ≠ SignalYes) :
    HostCookiesAllowed ParseString p ctx = (true, none) ∧
      BidderSyncAllowed ParseString p ctx bidder = (true, none) ∧
      AuctionActivitiesAllowed ParseString p ctx bidderCoreName bidder = (AllowAll, none) := by
  refine ⟨?_, ?_, ?_⟩
  · simp [HostCookiesAllowed, h]
  · simp [BidderSyncAllowed, h]
  · simp [AuctionActivitiesAllowed, h]

/-- Witness of C6: signal `SignalNo`, a consent string the decoder rejects and
a fetcher that fails. -/
theorem signal_not_yes_full_allow_witness :
    HostCookiesAllowed rejectingDecoder
        { sampleImpl SignalNo "not-a-valid-string" with fetchVendorList := failingFetcher }
        ⟨0⟩ = (true, none) ∧
      BidderSyncAllowed rejectingDecoder
        { sampleImpl SignalNo "not-a-valid-string" with fetchVendorList := failingFetcher }
        ⟨0⟩ "bidderA" = (true, none) ∧
      AuctionActivitiesAllowed rejectingDecoder
        { sampleImpl SignalNo "not-a-valid-string" with fetchVendorList := failingFetcher }
        ⟨0⟩ "bidderA" "aliasA" = (AllowAll, none) :=
  signal_not_yes_full_allow rejectingDecoder
    { sampleImpl SignalNo "not-a-valid-string" with fetchVendorList := failingFetcher }
    ⟨0⟩ "bidderA" "aliasA" (by decide)

/-- C7: signal `SignalYes`, publisher not on the non-standard list and empty
consent string: `AuctionActivitiesAllowed` returns, for every pair of bidder
names and with a nil error, exactly
`{AllowBidRequest: !PurposeEnforced(2), PassGeo: !FeatureOneEnforced(), PassID: false}`. -/
theorem auction_empty_consent_default (ParseString : ConsentDecoder) (p : permissionsImpl)
    (ctx : Context) (bidderCoreName bidder : String)
    (hsignal : p.gdprSignal = SignalYes)
    (hpub : p.nonStandardPublishers p.publisherID = none)
    (hconsent : p.consent = "") :
    AuctionActivitiesAllowed ParseString p ctx bidderCoreName bidder
      = (⟨!p.cfg.PurposeEnforced 2, !p.cfg.FeatureOneEnforced, false⟩, none) := by
  simp only [AuctionActivitiesAllowed, hsignal, hpub, hconsent, defaultPermissions]
  cases p.cfg.PurposeEnforced 2 <;> cases p.cfg.FeatureOneEnforced <;> simp

/-- Witness of C7: the spec scenario with purpose 2 enforced and feature one
not enforced gives `{false, true, false}`. -/
theorem auction_empty_consent_default_witness :
    AuctionActivitiesAllowed rejectingDecoder
        { sampleImpl SignalYes "" with
          cfg := { sampleConfig with FeatureOneEnforced := false } }
        ⟨0⟩ "bidderA" "aliasA"
      = (⟨false, true, false⟩, none) :=
  auction_empty_consent_default rejectingDecoder
    { sampleImpl SignalYes "" with cfg := { sampleConfig with FeatureOneEnforced := false } }
    ⟨0⟩ "bidderA" "aliasA" rfl rfl rfl

/-- C8: `resolveVendorId` returns the alias-table entry of the alias name
whenever there is one, whatever the core table holds; otherwise the core-table
entry of the core name if there is one; otherwise `ok = false`. -/
theorem resolveVendorId_precedence (p : permissionsImpl) (bidderCoreName bidder : String) :
    (∀ id, p.aliasGVLIDs bidder = some id →
        resolveVendorId p bidderCoreName bidder = (id, true)) ∧
      (∀ id, p.aliasGVLIDs bidder = none → p.vendorIDs bidderCoreName = some id →
        resolveVendorId p bidderCoreName bidder = (id, true)) ∧
      (p.aliasGVLIDs bidder = none → p.vendorIDs bidderCoreName = none →
        (resolveVendorId p bidderCoreName bidder).2 = false) := by
  refine ⟨?_, ?_, ?_⟩
  · intro id h
    simp [resolveVendorId, h]
  · intro id h1 h2
    simp [resolveVendorId, h1, h2]
  · intro h1 h2
    simp [resolveVendorId, h1, h2]

/-- The loop leaves `AllowBidRequest` and `PassGeo` as they were. -/
theorem passIDLoop_other_fields (chk : Nat → Bool) :
    ∀ (fuel i : Nat) (permissions : AuctionPermissions),
      (passIDLoop chk fuel i permissions).AllowBidRequest = permissions.AllowBidRequest ∧
        (passIDLoop chk fuel i permissions).PassGeo = permissions.PassGeo := by
  intro fuel
  induction fuel with
  | zero => intro i permissions; simp [passIDLoop]
  | succ n ih =>
    intro i permissions
    unfold passIDLoop
    by_cases hi : i ≤ 10
    · by_cases hc : chk i = true
      · simp [hi, hc]
      · simp [hi, hc, ih]
    · simp [hi]

/-- The loop sets `PassID` exactly when it was set before or some counter
value it visits passes the check. -/
theorem passIDLoop_PassID (chk : Nat → Bool) :
    ∀ (fuel i : Nat) (permissions : AuctionPermissions),
      (passIDLoop chk fuel i permissions).PassID = true ↔
        (permissions.PassID = true ∨ ∃ j, i ≤ j ∧ j < i + fuel ∧ j ≤ 10 ∧ chk j = true) := by
  intro fuel
  induction fuel with
  | zero =>
    intro i permissions
    constructor
    · intro h
      exact Or.inl (by simpa [passIDLoop] using h)
    · rintro (h | ⟨j, h1, h2, _, _⟩)
      · simpa [passIDLoop] using h
      · omega
  | succ n ih =>
    intro i permissions
    unfold passIDLoop
    by_cases hi : i ≤ 10
    · by_cases hc : chk i = true
      · simp only [hi, hc, if_true]
        constructor
        · intro _
          exact Or.inr ⟨i, le_refl i, by omega, hi, hc⟩
        · intro _
          trivial
      · have hcf : chk i = false := by simpa using hc
        simp only [hi, hcf, if_true, Bool.false_eq_true, if_false]
        rw [ih (i + 1) permissions]
        constructor
        · rintro (h | ⟨j, h1, h2, h3, h4⟩)
          · exact Or.inl h
          · exact Or.inr ⟨j, by omega, by omega, h3, h4⟩
        · rintro (h | ⟨j, h1, h2, h3, h4⟩)
          · exact Or.inl h
          · refine Or.inr ⟨j, ?_, by omega, h3, h4⟩
            rcases Nat.eq_or_lt_of_le h1 with heq | hlt
            · subst heq
              exact absurd h4 hc
            · exact hlt
    · simp only [hi, if_false]
      constructor
      · intro h
        exact Or.inl h
      · rintro (h | ⟨j, h1, _, h3, _⟩)
        · exact h
        · omega

/-- On the full evaluation path `allowActivities` returns, with a nil error,
the permissions the loop builds from the `PassGeo` and `AllowBidRequest`
assignments. -/
theorem allowActivities_full_path (ParseString : ConsentDecoder) (p : permissionsImpl)
    (ctx : Context) (vendorID : Nat) (bidder : String) (weakVendorEnforcement : Bool)
    (parsedConsent : VendorConsents) (vendorOrNil : Option Vendor) (vendor : Vendor)
    (consentMeta : ConsentMetadata)
    (hparse : parseVendor ParseString p ctx vendorID p.consent = .ok (parsedConsent, vendorOrNil))
    (hvendor : vendorOrNil = some vendor ∨
      (vendorOrNil = none ∧ weakVendorEnforcement = true ∧ parsedConsent.Version = 2 ∧
        vendor = vendorTrue))
    (henabled : p.cfg.IsEnabled = true)
    (hmeta : parsedConsent.asConsentMetadata = some consentMeta) :
    allowActivities ParseString p ctx vendorID bidder weakVendorEnforcement
      = (passIDLoop
          (fun i => checkPurpose p consentMeta vendor vendorID i
            (p.cfg.PurposeEnforcingVendors i) (p.cfg.PurposeVendorException i bidder)
            weakVendorEnforcement)
          9 2
          ⟨if p.cfg.PurposeEnforced 2 then
              checkPurpose p consentMeta vendor vendorID 2 (p.cfg.PurposeEnforcingVendors 2)
                (p.cfg.PurposeVendorException 2 bidder) weakVendorEnforcement
            else true,
            if p.cfg.FeatureOneEnforced then
              p.cfg.FeatureOneVendorException bidder ||
                (consentMeta.SpecialFeatureOptIn 1 &&
                  (vendor.SpecialFeature 1 || weakVendorEnforcement))
            else true,
            false⟩,
        none) := by
  unfold allowActivities
  rw [hparse]
  rcases hvendor with hv | ⟨hv, hw, hver, hvt⟩
  · subst hv
    simp only [henabled, hmeta]
    cases p.cfg.FeatureOneEnforced <;> cases p.cfg.PurposeEnforced 2 <;> simp
  · subst hv hw hvt
    simp only [henabled, hmeta, hver]
    cases p.cfg.FeatureOneEnforced <;> cases p.cfg.PurposeEnforced 2 <;> simp

/-- C9: on the full evaluation path of `allowActivities` (the consent decodes
and the vendor lookup returns, a vendor capability is present or substituted,
enforcement is enabled, the TCF2 metadata is accessible) the error is nil and
`PassID` is true iff `checkPurpose`, with the purpose's
`PurposeEnforcingVendors`, the bidder's `PurposeVendorException` and the
call's weak-enforcement flag, returns true for at least one purpose in 2..10;
it is false iff it returns false for all of them. -/
theorem allowActivities_PassID (ParseString : ConsentDecoder) (p : permissionsImpl)
    (ctx : Context) (vendorID : Nat) (bidder : String) (weakVendorEnforcement : Bool)
    (parsedConsent : VendorConsents) (vendorOrNil : Option Vendor) (vendor : Vendor)
    (consentMeta : ConsentMetadata)
    (hparse : parseVendor ParseString p ctx vendorID p.consent = .ok (parsedConsent, vendorOrNil))
    (hvendor : vendorOrNil = some vendor ∨
      (vendorOrNil = none ∧ weakVendorEnforcement = true ∧ parsedConsent.Version = 2 ∧
        vendor = vendorTrue))
    (henabled : p.cfg.IsEnabled = true)
    (hmeta : parsedConsent.asConsentMetadata = some consentMeta) :
    (allowActivities ParseString p ctx vendorID bidder weakVendorEnforcement).2 = none ∧
      ((allowActivities ParseString p ctx vendorID bidder weakVendorEnforcement).1.PassID = true ↔
        ∃ purpose, 2 ≤ purpose ∧ purpose ≤ 10 ∧
          checkPurpose p consentMeta vendor vendorID purpose
            (p.cfg.PurposeEnforcingVendors purpose)
            (p.cfg.PurposeVendorException purpose bidder) weakVendorEnforcement = true) ∧
      ((allowActivities ParseString p ctx vendorID bidder weakVendorEnforcement).1.PassID = false ↔
        ∀ purpose, 2 ≤ purpose → purpose ≤ 10 →
          checkPurpose p consentMeta vendor vendorID purpose
            (p.cfg.PurposeEnforcingVendors purpose)
            (p.cfg.PurposeVendorException purpose bidder) weakVendorEnforcement = false) := by
  have hfull := allowActivities_full_path ParseString p ctx vendorID bidder
    weakVendorEnforcement parsedConsent vendorOrNil vendor consentMeta hparse hvendor henabled
    hmeta
  have hiff :
      (allowActivities ParseString p ctx vendorID bidder weakVendorEnforcement).1.PassID = true ↔
        ∃ purpose, 2 ≤ purpose ∧ purpose ≤ 10 ∧
          checkPurpose p consentMeta vendor vendorID purpose
            (p.cfg.PurposeEnforcingVendors purpose)
            (p.cfg.PurposeVendorException purpose bidder) weakVendorEnforcement = true := by
    rw [hfull]
    rw [passIDLoop_PassID]
    constructor
    · rintro (h | ⟨j, h1, _, h3, h4⟩)
      · exact absurd h (by simp)
      · exact ⟨j, h1, h3, h4⟩
    · rintro ⟨j, h1, h3, h4⟩
      exact Or.inr ⟨j, h1, by omega, h3, h4⟩
  refine ⟨by rw [hfull], hiff, ?_⟩
  constructor
  · intro hfalse purpose h1 h2
    by_contra hne
    have htrue := hiff.mpr ⟨purpose, h1, h2, by simpa using hne⟩
    rw [hfalse] at htrue
    exact Bool.noConfusion htrue
  · intro hall
    by_contra hne
    obtain ⟨purpose, h1, h2, h3⟩ := hiff.mp (by simpa using hne)
    rw [hall purpose h1 h2] at h3
    exact Bool.noConfusion h3

/-- Witness of C9: vendor 8 has no entry in the fetched list, the call is
under weak enforcement and the decoded consent has format version 2, so
`vendorTrue` is substituted; purpose 5 alone is consented. -/
theorem allowActivities_PassID_witness :
    (allowActivities (acceptingDecoder purposeFiveConsent) (sampleImpl SignalYes "c") ⟨0⟩ 8
        "bidderA" true).2 = none ∧
      ((allowActivities (acceptingDecoder purposeFiveConsent) (sampleImpl SignalYes "c") ⟨0⟩ 8
          "bidderA" true).1.PassID = true ↔
        ∃ purpose, 2 ≤ purpose ∧ purpose ≤ 10 ∧
          checkPurpose (sampleImpl SignalYes "c") purposeFiveConsent vendorTrue 8 purpose
            (sampleConfig.PurposeEnforcingVendors purpose)
            (sampleConfig.PurposeVendorException purpose "bidderA") true = true) ∧
      ((allowActivities (acceptingDecoder purposeFiveConsent) (sampleImpl SignalYes "c") ⟨0⟩ 8
          "bidderA" true).1.PassID = false ↔
        ∀ purpose, 2 ≤ purpose → purpose ≤ 10 →
          checkPurpose (sampleImpl SignalYes "c") purposeFiveConsent vendorTrue 8 purpose
            (sampleConfig.PurposeEnforcingVendors purpose)
            (sampleConfig.PurposeVendorException purpose "bidderA") true = false) :=
  allowActivities_PassID (acceptingDecoder purposeFiveConsent) (sampleImpl SignalYes "c") ⟨0⟩ 8
    "bidderA" true (sampleParsed purposeFiveConsent) none vendorTrue purposeFiveConsent rfl
    (Or.inr ⟨rfl, rfl, rfl, rfl⟩) rfl rfl

/-- C10: signal `SignalYes`, publisher not exempt, non-empty consent string,
no vendor id for the bidder in the alias table or the core table, and
`BasicEnforcementVendor(bidder)` false: `AuctionActivitiesAllowed` returns
`(DenyAll, nil)` for every decoder, so whether or not the string decodes. -/
theorem auction_unresolved_vendor_deny (ParseString : ConsentDecoder) (p : permissionsImpl)
    (ctx : Context) (bidderCoreName bidder : String)
    (hsignal : p.gdprSignal = SignalYes)
    (hpub : p.nonStandardPublishers p.publisherID = none)
    (hconsent : p.consent ≠ "")
    (halias : p.aliasGVLIDs bidder = none)
    (hcore : p.vendorIDs bidderCoreName = none)
    (hbasic : p.cfg.BasicEnforcementVendor bidder = false) :
    AuctionActivitiesAllowed ParseString p ctx bidderCoreName bidder = (DenyAll, none) := by
  simp [AuctionActivitiesAllowed, hsignal, hpub, hconsent, resolveVendorId, halias, hcore,
    hbasic]

/-- Witness of C10: an undecodable consent string and empty tables. -/
theorem auction_unresolved_vendor_deny_witness :
    AuctionActivitiesAllowed rejectingDecoder (sampleImpl SignalYes "not-a-valid-string") ⟨0⟩
        "bidderA" "aliasA" = (DenyAll, none) :=
  auction_unresolved_vendor_deny rejectingDecoder (sampleImpl SignalYes "not-a-valid-string")
    ⟨0⟩ "bidderA" "aliasA" rfl rfl (by decide) rfl rfl rfl

/-- When the decoder accepts the string with format version 2 and the fetch
for the declared list version succeeds, `parseVendor` returns the decoded
consent and the list lookup of the vendor id. -/
theorem parseVendor_version_two (ParseString : ConsentDecoder) (p : permissionsImpl)
    (ctx : Context) (vendorID : Nat) (consent : String) (parsedConsent : VendorConsents)
    (vendorList : VendorList)
    (hdecode : ParseString consent = .ok parsedConsent)
    (hversion : parsedConsent.Version = 2)
    (hfetch : p.fetchVendorList ctx parsedConsent.VendorListVersion = .ok vendorList) :
    parseVendor ParseString p ctx vendorID consent
      = .ok (parsedConsent, vendorList.Vendor vendorID) := by
  simp [parseVendor, hdecode, hversion, hfetch]

/-- The loop started at purpose 2 with nine iterations, on permissions whose
`PassID` is unset, computes the disjunction of the check over 2..10 and keeps
the other two fields. -/
theorem passIDLoop_eq_any (chk : Nat → Bool) (allowBidRequest passGeo : Bool) :
    passIDLoop chk 9 2 ⟨allowBidRequest, passGeo, false⟩
      = ⟨allowBidRequest, passGeo, (List.range' 2 9).any chk⟩ := by
  have hother := passIDLoop_other_fields chk 9 2 ⟨allowBidRequest, passGeo, false⟩
  have hid := passIDLoop_PassID chk 9 2 ⟨allowBidRequest, passGeo, false⟩
  have hpass : (passIDLoop chk 9 2 ⟨allowBidRequest, passGeo, false⟩).PassID
      = (List.range' 2 9).any chk := by
    rw [Bool.eq_iff_iff, hid, List.any_eq_true]
    constructor
    · rintro (h | ⟨j, h1, h2, _, h4⟩)
      · exact absurd h (by simp)
      · exact ⟨j, by rw [List.mem_range'_1]; omega, h4⟩
    · rintro ⟨j, hj, h4⟩
      rw [List.mem_range'_1] at hj
      exact Or.inr ⟨j, hj.1, hj.2, by omega, h4⟩
  cases hres : passIDLoop chk 9 2 ⟨allowBidRequest, passGeo, false⟩ with
  | mk a g i =>
    rw [hres] at hother hpass
    simp only at hother hpass
    rw [hother.1, hother.2, hpass]

/-- On the full evaluation path `allowActivities` returns the cascade's
permissions with a nil error. -/
theorem allowActivities_eq_cascade (ParseString : ConsentDecoder) (p : permissionsImpl)
    (ctx : Context) (vendorID : Nat) (bidder : String) (weakVendorEnforcement : Bool)
    (parsedConsent : VendorConsents) (vendorOrNil : Option Vendor) (vendor : Vendor)
    (consentMeta : ConsentMetadata)
    (hparse : parseVendor ParseString p ctx vendorID p.consent = .ok (parsedConsent, vendorOrNil))
    (hvendor : vendorOrNil = some vendor ∨
      (vendorOrNil = none ∧ weakVendorEnforcement = true ∧ parsedConsent.Version = 2 ∧
        vendor = vendorTrue))
    (henabled : p.cfg.IsEnabled = true)
    (hmeta : parsedConsent.asConsentMetadata = some consentMeta) :
    allowActivities ParseString p ctx vendorID bidder weakVendorEnforcement
      = (cascadePermissions p consentMeta vendor vendorID bidder weakVendorEnforcement, none) := by
  rw [allowActivities_full_path ParseString p ctx vendorID bidder weakVendorEnforcement
    parsedConsent vendorOrNil vendor consentMeta hparse hvendor henabled hmeta,
    passIDLoop_eq_any]
  rfl

/-- C11 as stated fails: the signal applies, the publisher is not exempt, no
table resolves a vendor id for the bidder, `BasicEnforcementVendor(bidder)` is
true, the consent string decodes to an object that reports format version 2,
the vendor-list fetch succeeds with no entry for vendor 0 and enforcement is
enabled; the decoded object fails the type assertion to
`tcf2.ConsentMetadata`, and `AuctionActivitiesAllowed` returns the default
permissions together with the error "Unable to access TCF2 parsed consent". -/
theorem auction_unresolved_vendor_weak_counterexample :
    basicEnforcementImpl.gdprSignal = SignalYes ∧
      basicEnforcementImpl.nonStandardPublishers basicEnforcementImpl.publisherID = none ∧
      basicEnforcementImpl.aliasGVLIDs "aliasA" = none ∧
      basicEnforcementImpl.vendorIDs "bidderA" = none ∧
      basicEnforcementImpl.cfg.BasicEnforcementVendor "aliasA" = true ∧
      untypedDecoder basicEnforcementImpl.consent = .ok untypedParsed ∧
      untypedParsed.Version = 2 ∧
      basicEnforcementImpl.fetchVendorList ⟨0⟩ untypedParsed.VendorListVersion
        = .ok (sampleVendorList vendorFalse) ∧
      (sampleVendorList vendorFalse).Vendor 0 = none ∧
      basicEnforcementImpl.cfg.IsEnabled = true ∧
      AuctionActivitiesAllowed untypedDecoder basicEnforcementImpl ⟨0⟩ "bidderA" "aliasA"
        = (⟨false, false, false⟩,
            some (GoError.errorString "Unable to access TCF2 parsed consent")) :=
  ⟨rfl, rfl, rfl, rfl, rfl, rfl, rfl, rfl, rfl, rfl, by decide⟩

/-- C11 amended: signal `SignalYes`, publisher not exempt, non-empty consent
string, no vendor id for the bidder in either table,
`BasicEnforcementVendor(bidder)` true, the string decodes to format version 2
and the decoded object exposes the TCF2 consent metadata, the vendor-list
fetch succeeds with no entry for vendor 0 and enforcement is enabled:
`AuctionActivitiesAllowed` returns, with a nil error, the permissions of the
cascade for vendor id 0 with `vendorTrue` and weak enforcement on. -/
theorem auction_unresolved_vendor_weak (ParseString : ConsentDecoder) (p : permissionsImpl)
    (ctx : Context) (bidderCoreName bidder : String) (parsedConsent : VendorConsents)
    (vendorList : VendorList) (consentMeta : ConsentMetadata)
    (hsignal : p.gdprSignal = SignalYes)
    (hpub : p.nonStandardPublishers p.publisherID = none)
    (hconsent : p.consent ≠ "")
    (halias : p.aliasGVLIDs bidder = none)
    (hcore : p.vendorIDs bidderCoreName = none)
    (hbasic : p.cfg.BasicEnforcementVendor bidder = true)
    (hdecode : ParseString p.consent = .ok parsedConsent)
    (hversion : parsedConsent.Version = 2)
    (hfetch : p.fetchVendorList ctx parsedConsent.VendorListVersion = .ok vendorList)
    (hentry : vendorList.Vendor 0 = none)
    (henabled : p.cfg.IsEnabled = true)
    (hmeta : parsedConsent.asConsentMetadata = some consentMeta) :
    AuctionActivitiesAllowed ParseString p ctx bidderCoreName bidder
      = (cascadePermissions p consentMeta vendorTrue 0 bidderCoreName true, none) := by
  have hparse : parseVendor ParseString p ctx 0 p.consent = .ok (parsedConsent, none) := by
    rw [parseVendor_version_two ParseString p ctx 0 p.consent parsedConsent vendorList hdecode
      hversion hfetch, hentry]
  have hact := allowActivities_eq_cascade ParseString p ctx 0 bidderCoreName true parsedConsent
    none vendorTrue consentMeta hparse (Or.inr ⟨rfl, rfl, hversion, rfl⟩) henabled hmeta
  simp [AuctionActivitiesAllowed, hsignal, hpub, hconsent, resolveVendorId, halias, hcore,
    hbasic, hact]

/-- Witness of the amended C11: a basic-enforcement bidder without vendor id,
purpose 5 alone consented; the result passes the id and is not `DenyAll`. -/
theorem auction_unresolved_vendor_weak_witness :
    AuctionActivitiesAllowed (acceptingDecoder purposeFiveConsent)
        { sampleImpl SignalYes "c" with
          cfg := { sampleConfig with BasicEnforcementVendor := fun _ => true } }
        ⟨0⟩ "bidderA" "aliasA"
      = (⟨false, false, true⟩, none) :=
  auction_unresolved_vendor_weak (acceptingDecoder purposeFiveConsent)
    { sampleImpl SignalYes "c" with
      cfg := { sampleConfig with BasicEnforcementVendor := fun _ => true } }
    ⟨0⟩ "bidderA" "aliasA" (sampleParsed purposeFiveConsent) (sampleVendorList vendorFalse)
    purposeFiveConsent rfl rfl (by decide) rfl rfl rfl rfl rfl rfl rfl rfl rfl

/-- C12: on the full evaluation path of `allowActivities`, `PassGeo` is
`FeatureOneVendorException(bidder) OR (SpecialFeatureOptIn(1) AND
(vendor.SpecialFeature(1) OR weakVendorEnforcement))` when feature one is
enforced, and true otherwise. -/
theorem allowActivities_PassGeo (ParseString : ConsentDecoder) (p : permissionsImpl)
    (ctx : Context) (vendorID : Nat) (bidder : String) (weakVendorEnforcement : Bool)
    (parsedConsent : VendorConsents) (vendorOrNil : Option Vendor) (vendor : Vendor)
    (consentMeta : ConsentMetadata)
    (hparse : parseVendor ParseString p ctx vendorID p.consent = .ok (parsedConsent, vendorOrNil))
    (hvendor : vendorOrNil = some vendor ∨
      (vendorOrNil = none ∧ weakVendorEnforcement = true ∧ parsedConsent.Version = 2 ∧
        vendor = vendorTrue))
    (henabled : p.cfg.IsEnabled = true)
    (hmeta : parsedConsent.asConsentMetadata = some consentMeta) :
    (allowActivities ParseString p ctx vendorID bidder weakVendorEnforcement).1.PassGeo
      = (if p.cfg.FeatureOneEnforced then
          p.cfg.FeatureOneVendorException bidder ||
            (consentMeta.SpecialFeatureOptIn 1 &&
              (vendor.SpecialFeature 1 || weakVendorEnforcement))
        else true) := by
  rw [allowActivities_full_path ParseString p ctx vendorID bidder weakVendorEnforcement
    parsedConsent vendorOrNil vendor consentMeta hparse hvendor henabled hmeta]
  exact (passIDLoop_other_fields _ 9 2 _).2

/-- Witness of C12: feature one enforced, no exception, no opt-in; the listed
vendor 7 claims nothing and `PassGeo` is false. -/
theorem allowActivities_PassGeo_witness :
    (allowActivities (acceptingDecoder purposeFiveConsent) (sampleImpl SignalYes "c") ⟨0⟩ 7
        "bidderA" false).1.PassGeo
      = (if sampleConfig.FeatureOneEnforced then
          sampleConfig.FeatureOneVendorException "bidderA" ||
            (purposeFiveConsent.SpecialFeatureOptIn 1 &&
              (vendorFalse.SpecialFeature 1 || false))
        else true) :=
  allowActivities_PassGeo (acceptingDecoder purposeFiveConsent) (sampleImpl SignalYes "c") ⟨0⟩ 7
    "bidderA" false (sampleParsed purposeFiveConsent) (some vendorFalse) vendorFalse
    purposeFiveConsent rfl (Or.inl rfl) rfl rfl

/-- C13: on the full evaluation path of `allowActivities`, `AllowBidRequest`
is `checkPurpose` for purpose 2, with `PurposeEnforcingVendors(2)`,
`PurposeVendorException(2, bidder)` and the weak-enforcement flag, when
purpose 2 is enforced, and true otherwise. -/
theorem allowActivities_AllowBidRequest (ParseString : ConsentDecoder) (p : permissionsImpl)
    (ctx : Context) (vendorID : Nat) (bidder : String) (weakVendorEnforcement : Bool)
    (parsedConsent : VendorConsents) (vendorOrNil : Option Vendor) (vendor : Vendor)
    (consentMeta : ConsentMetadata)
    (hparse : parseVendor ParseString p ctx vendorID p.consent = .ok (parsedConsent, vendorOrNil))
    (hvendor : vendorOrNil = some vendor ∨
      (vendorOrNil = none ∧ weakVendorEnforcement = true ∧ parsedConsent.Version = 2 ∧
        vendor = vendorTrue))
    (henabled : p.cfg.IsEnabled = true)
    (hmeta : parsedConsent.asConsentMetadata = some consentMeta) :
    (allowActivities ParseString p ctx vendorID bidder weakVendorEnforcement).1.AllowBidRequest
      = (if p.cfg.PurposeEnforced 2 then
          checkPurpose p consentMeta vendor vendorID 2 (p.cfg.PurposeEnforcingVendors 2)
            (p.cfg.PurposeVendorException 2 bidder) weakVendorEnforcement
        else true) := by
  rw [allowActivities_full_path ParseString p ctx vendorID bidder weakVendorEnforcement
    parsedConsent vendorOrNil vendor consentMeta hparse hvendor henabled hmeta]
  exact (passIDLoop_other_fields _ 9 2 _).1

/-- Witness of C13: purpose 2 is not enforced, so the bid request is allowed
although the metadata consents to purpose 5 alone. -/
theorem allowActivities_AllowBidRequest_witness :
    (allowActivities (acceptingDecoder purposeFiveConsent)
        { sampleImpl SignalYes "c" with
          cfg := { sampleConfig with PurposeEnforced := fun purpose => purpose != 2 } }
        ⟨0⟩ 7 "bidderA" false).1.AllowBidRequest = true :=
  allowActivities_AllowBidRequest (acceptingDecoder purposeFiveConsent)
    { sampleImpl SignalYes "c" with
      cfg := { sampleConfig with PurposeEnforced := fun purpose => purpose != 2 } }
    ⟨0⟩ 7 "bidderA" false (sampleParsed purposeFiveConsent) (some vendorFalse) vendorFalse
    purposeFiveConsent rfl (Or.inl rfl) rfl rfl

/-- C14: when the consent decodes and the vendor lookup returns, a vendor
capability is present (found in the list, or substituted under weak
enforcement with format version 2) and `IsEnabled()` is false,
`allowActivities` returns `(AllowBidRequestOnly, nil)`, whatever the consent
bits, the accessibility of the metadata and the other settings are. -/
theorem allowActivities_disabled (ParseString : ConsentDecoder) (p : permissionsImpl)
    (ctx : Context) (vendorID : Nat) (bidder : String) (weakVendorEnforcement : Bool)
    (parsedConsent : VendorConsents) (vendorOrNil : Option Vendor) (vendor : Vendor)
    (hparse : parseVendor ParseString p ctx vendorID p.consent = .ok (parsedConsent, vendorOrNil))
    (hvendor : vendorOrNil = some vendor ∨
      (vendorOrNil = none ∧ weakVendorEnforcement = true ∧ parsedConsent.Version = 2))
    (hdisabled : p.cfg.IsEnabled = false) :
    allowActivities ParseString p ctx vendorID bidder weakVendorEnforcement
      = (AllowBidRequestOnly, none) := by
  unfold allowActivities
  rw [hparse]
  rcases hvendor with hv | ⟨hv, hw, hver⟩
  · subst hv
    simp [hdisabled]
  · subst hv hw
    simp [hdisabled, hver]

/-- Witness of C14: enforcement disabled, vendor 7 listed, every purpose
consented. -/
theorem allowActivities_disabled_witness :
    allowActivities (acceptingDecoder (sampleConsent false false false true true true true))
        { sampleImpl SignalYes "c" with cfg := { sampleConfig with IsEnabled := false } }
        ⟨0⟩ 7 "bidderA" false
      = (AllowBidRequestOnly, none) :=
  allowActivities_disabled (acceptingDecoder (sampleConsent false false false true true true true))
    { sampleImpl SignalYes "c" with cfg := { sampleConfig with IsEnabled := false } }
    ⟨0⟩ 7 "bidderA" false (sampleParsed (sampleConsent false false false true true true true))
    (some vendorFalse) vendorFalse rfl (Or.inl rfl) rfl

/-- The three assignments of `defaultPermissions`, as one record. -/
theorem defaultPermissions_eq (p : permissionsImpl) :
    defaultPermissions p = ⟨!p.cfg.PurposeEnforced 2, !p.cfg.FeatureOneEnforced, false⟩ := by
  unfold defaultPermissions
  cases p.cfg.PurposeEnforced 2 <;> cases p.cfg.FeatureOneEnforced <;> simp

/-- Every return of `allowSync` that carries an error carries `false`. -/
theorem allowSync_error_false (ParseString : ConsentDecoder) (p : permissionsImpl)
    (ctx : Context) (vendorID : Nat) (vendorException : Bool)
    (h : (allowSync ParseString p ctx vendorID vendorException).2 ≠ none) :
    (allowSync ParseString p ctx vendorID vendorException).1 = false := by
  unfold allowSync at h ⊢
  repeat' split
  all_goals simp_all

/-- Every return of `allowActivities` that carries an error carries the
default permissions. -/
theorem allowActivities_error_default (ParseString : ConsentDecoder) (p : permissionsImpl)
    (ctx : Context) (vendorID : Nat) (bidder : String) (weakVendorEnforcement : Bool)
    (h : (allowActivities ParseString p ctx vendorID bidder weakVendorEnforcement).2 ≠ none) :
    (allowActivities ParseString p ctx vendorID bidder weakVendorEnforcement).1
      = defaultPermissions p := by
  unfold allowActivities at h ⊢
  repeat' split
  all_goals simp_all

/-- C15: whenever one of the three public operations returns a non-nil error,
the value next to it is `false` for `HostCookiesAllowed` and
`BidderSyncAllowed`, and the default permissions
`{!PurposeEnforced(2), !FeatureOneEnforced(), false}` for
`AuctionActivitiesAllowed`; this holds for every decoder and fetcher, so for a
decoder failure as for a vendor-list fetch failure. -/
theorem error_results_conservative (ParseString : ConsentDecoder) (p : permissionsImpl)
    (ctx : Context) (bidderCoreName bidder : String) :
    ((HostCookiesAllowed ParseString p ctx).2 ≠ none →
        (HostCookiesAllowed ParseString p ctx).1 = false) ∧
      ((BidderSyncAllowed ParseString p ctx bidder).2 ≠ none →
        (BidderSyncAllowed ParseString p ctx bidder).1 = false) ∧
      ((AuctionActivitiesAllowed ParseString p ctx bidderCoreName bidder).2 ≠ none →
        (AuctionActivitiesAllowed ParseString p ctx bidderCoreName bidder).1
          = ⟨!p.cfg.PurposeEnforced 2, !p.cfg.FeatureOneEnforced, false⟩) := by
  refine ⟨?_, ?_, ?_⟩
  · unfold HostCookiesAllowed
    split
    · intro h
      exact absurd rfl h
    · exact allowSync_error_false ParseString p ctx _ false
  · unfold BidderSyncAllowed
    split
    · intro h
      exact absurd rfl h
    · split
      · exact allowSync_error_false ParseString p ctx _ _
      · intro h
        exact absurd rfl h
  · rw [← defaultPermissions_eq]
    unfold AuctionActivitiesAllowed
    split
    · intro h
      exact absurd rfl h
    · split
      · intro h
        exact absurd rfl h
      · split
        · intro _
          rfl
        · split
          · exact allowActivities_error_default ParseString p ctx _ bidderCoreName _
          · by_cases hweak : p.cfg.BasicEnforcementVendor bidder = true
            · simp only [hweak, if_true]
              exact allowActivities_error_default ParseString p ctx 0 bidderCoreName true
            · simp [hweak]

/-- Witness of C15: a fetch failure for the host vendor, a decoder failure
for a known bidder, and a fetch failure in the auction path; each returns an
error next to the conservative value. -/
theorem error_results_conservative_witness :
    ((HostCookiesAllowed (acceptingDecoder purposeFiveConsent)
          { sampleImpl SignalYes "c" with fetchVendorList := failingFetcher } ⟨0⟩).2
        = some (GoError.errorString "vendor list unavailable") ∧
      (HostCookiesAllowed (acceptingDecoder purposeFiveConsent)
          { sampleImpl SignalYes "c" with fetchVendorList := failingFetcher } ⟨0⟩).1 = false) ∧
    ((BidderSyncAllowed rejectingDecoder
          { sampleImpl SignalYes "c" with vendorIDs := fun _ => some 7 } ⟨0⟩ "bidderA").2
        = some (GoError.ErrorMalformedConsent "c" (GoError.errorString "decode failure")) ∧
      (BidderSyncAllowed rejectingDecoder
          { sampleImpl SignalYes "c" with vendorIDs := fun _ => some 7 } ⟨0⟩ "bidderA").1
        = false) ∧
    ((AuctionActivitiesAllowed (acceptingDecoder purposeFiveConsent)
          { sampleImpl SignalYes "c" with
            fetchVendorList := failingFetcher
            vendorIDs := fun _ => some 7 } ⟨0⟩ "bidderA" "aliasA").2
        = some (GoError.errorString "vendor list unavailable") ∧
      (AuctionActivitiesAllowed (acceptingDecoder purposeFiveConsent)
          { sampleImpl SignalYes "c" with
            fetchVendorList := failingFetcher
            vendorIDs := fun _ => some 7 } ⟨0⟩ "bidderA" "aliasA").1
        = ⟨false, false, false⟩) :=
  ⟨⟨rfl, (error_results_conservative (acceptingDecoder purposeFiveConsent)
      { sampleImpl SignalYes "c" with fetchVendorList := failingFetcher } ⟨0⟩ "bidderA"
      "aliasA").1 (by decide)⟩,
    ⟨rfl, (error_results_conservative rejectingDecoder
      { sampleImpl SignalYes "c" with vendorIDs := fun _ => some 7 } ⟨0⟩ "bidderA"
      "bidderA").2.1 (by decide)⟩,
    ⟨rfl, (error_results_conservative (acceptingDecoder purposeFiveConsent)
      { sampleImpl SignalYes "c" with
        fetchVendorList := failingFetcher
        vendorIDs := fun _ => some 7 } ⟨0⟩ "bidderA" "aliasA").2.2 (by decide)⟩⟩

/-- C16: signal `SignalYes`, a vendor id known for the bidder, and a
non-empty consent string the decoder rejects with cause `cause`:
`BidderSyncAllowed` returns `false` with
`ErrorMalformedConsent{Consent: consent, Cause: cause}`, and the same for
every fetcher put in place of the engine's, so the fetcher is not consulted. -/
theorem bidderSync_malformed_consent (ParseString : ConsentDecoder) (p : permissionsImpl)
    (ctx : Context) (bidder : String) (id : Nat) (cause : GoError)
    (hsignal : p.gdprSignal = SignalYes)
    (hid : p.vendorIDs bidder = some id)
    (hconsent : p.consent ≠ "")
    (hreject : ParseString p.consent = .error cause) :
    BidderSyncAllowed ParseString p ctx bidder
        = (false, some (GoError.ErrorMalformedConsent p.consent cause)) ∧
      ∀ fetcher : VendorListFetcher,
        BidderSyncAllowed ParseString { p with fetchVendorList := fetcher } ctx bidder
          = (false, some (GoError.ErrorMalformedConsent p.consent cause)) := by
  refine ⟨?_, ?_⟩
  · simp [BidderSyncAllowed, hsignal, hid, allowSync, hconsent, parseVendor, hreject]
  · intro fetcher
    simp [BidderSyncAllowed, hsignal, hid, allowSync, hconsent, parseVendor, hreject]

/-- Witness of C16: the spec scenario, consent "not-a-valid-string" for a
bidder with vendor id 7. -/
theorem bidderSync_malformed_consent_witness :
    BidderSyncAllowed rejectingDecoder
        { sampleImpl SignalYes "not-a-valid-string" with vendorIDs := fun _ => some 7 }
        ⟨0⟩ "bidderA"
      = (false, some (GoError.ErrorMalformedConsent "not-a-valid-string"
          (GoError.errorString "decode failure"))) :=
  (bidderSync_malformed_consent rejectingDecoder
    { sampleImpl SignalYes "not-a-valid-string" with vendorIDs := fun _ => some 7 }
    ⟨0⟩ "bidderA" 7 (GoError.errorString "decode failure") rfl rfl (by decide) rfl).1

/-- C17 as stated fails: the signal applies, purpose-one treatment is enabled
with access allowed, the consent string decodes to metadata that signals
purpose-one treatment, but the fetched vendor list has no entry for the host
vendor id 8; `HostCookiesAllowed` returns `(false, nil)`. -/
theorem hostCookies_treatment_counterexample :
    treatmentConfig.PurposeOneTreatmentEnabled = true ∧
      treatmentConfig.PurposeOneTreatmentAccessAllowed = true ∧
      acceptingDecoder treatmentConsent "c" = .ok (sampleParsed treatmentConsent) ∧
      treatmentConsent.PurposeOneTreatment = true ∧
      (sampleVendorList vendorFalse).Vendor 8 = none ∧
      HostCookiesAllowed (acceptingDecoder treatmentConsent)
        { sampleImpl SignalYes "c" with cfg := treatmentConfig, hostVendorID := 8 } ⟨0⟩
        = (false, none) :=
  ⟨rfl, rfl, rfl, rfl, rfl, by decide⟩

/-- C17 amended: the signal applies, purpose-one treatment is enabled with
access allowed, the non-empty consent string decodes to version-2 metadata
that signals purpose-one treatment, the vendor-list fetch succeeds and the
list has an entry for the host vendor id: `HostCookiesAllowed` returns
`(true, nil)`, whatever the purpose-1 consent bits, the vendor bits, the
flags of the entry, the publisher restrictions and the enforcement of
purpose 1 are. -/
theorem hostCookies_treatment (ParseString : ConsentDecoder) (p : permissionsImpl)
    (ctx : Context) (parsedConsent : VendorConsents) (vendorList : VendorList)
    (vendor : Vendor) (consentMeta : ConsentMetadata)
    (hsignal : p.gdprSignal = SignalYes)
    (hconsent : p.consent ≠ "")
    (hdecode : ParseString p.consent = .ok parsedConsent)
    (hversion : parsedConsent.Version = 2)
    (hfetch : p.fetchVendorList ctx parsedConsent.VendorListVersion = .ok vendorList)
    (hentry : vendorList.Vendor (p.hostVendorID % 65536).toNat = some vendor)
    (hmeta : parsedConsent.asConsentMetadata = some consentMeta)
    (htreatment : consentMeta.PurposeOneTreatment = true)
    (henabled : p.cfg.PurposeOneTreatmentEnabled = true)
    (haccess : p.cfg.PurposeOneTreatmentAccessAllowed = true) :
    HostCookiesAllowed ParseString p ctx = (true, none) := by
  have hparse := parseVendor_version_two ParseString p ctx (p.hostVendorID % 65536).toNat
    p.consent parsedConsent vendorList hdecode hversion hfetch
  rw [hentry] at hparse
  simp only [HostCookiesAllowed, hsignal, allowSync, hconsent, hparse, hmeta, htreatment,
    henabled, haccess]
  cases p.cfg.PurposeEnforced 1 <;> simp

/-- Witness of the amended C17: host vendor 7 is listed with an entry that
claims nothing, no consent bit is set and restriction type 0 is reported. -/
theorem hostCookies_treatment_witness :
    HostCookiesAllowed (acceptingDecoder treatmentConsent)
        { sampleImpl SignalYes "c" with cfg := treatmentConfig } ⟨0⟩
      = (true, none) :=
  hostCookies_treatment (acceptingDecoder treatmentConsent)
    { sampleImpl SignalYes "c" with cfg := treatmentConfig } ⟨0⟩
    (sampleParsed treatmentConsent) (sampleVendorList vendorFalse) vendorFalse treatmentConsent
    rfl (by decide) rfl rfl rfl rfl rfl rfl rfl rfl

/-- C18 as stated fails: with purpose 1 not enforced, `allowSync` returns
`(false, nil)` for the empty consent string, `false` with an error for a
string the decoder rejects, and `(false, nil)` when the fetched list has no
entry for the vendor id. -/
theorem allowSync_not_enforced_counterexample :
    purposeOneFreeConfig.PurposeEnforced 1 = false ∧
      allowSync (acceptingDecoder purposeFiveConsent)
        { sampleImpl SignalYes "" with cfg := purposeOneFreeConfig } ⟨0⟩ 7 false
        = (false, none) ∧
      allowSync rejectingDecoder
        { sampleImpl SignalYes "c" with cfg := purposeOneFreeConfig } ⟨0⟩ 7 false
        = (false, some (GoError.ErrorMalformedConsent "c"
            (GoError.errorString "decode failure"))) ∧
      allowSync (acceptingDecoder purposeFiveConsent)
        { sampleImpl SignalYes "c" with cfg := purposeOneFreeConfig } ⟨0⟩ 8 false
        = (false, none) := by
  decide

/-- C18 amended: on the purpose-1 sync path, if the consent string is
non-empty and decodes to format version 2, the vendor-list fetch succeeds, the
list has an entry for the vendor id and purpose 1 is not enforced, `allowSync`
returns `(true, nil)`, whatever the metadata, the entry and the vendor
exception are. -/
theorem allowSync_not_enforced (ParseString : ConsentDecoder) (p : permissionsImpl)
    (ctx : Context) (vendorID : Nat) (vendorException : Bool)
    (parsedConsent : VendorConsents) (vendorList : VendorList) (vendor : Vendor)
    (hconsent : p.consent ≠ "")
    (hdecode : ParseString p.consent = .ok parsedConsent)
    (hversion : parsedConsent.Version = 2)
    (hfetch : p.fetchVendorList ctx parsedConsent.VendorListVersion = .ok vendorList)
    (hentry : vendorList.Vendor vendorID = some vendor)
    (hfree : p.cfg.PurposeEnforced 1 = false) :
    allowSync ParseString p ctx vendorID vendorException = (true, none) := by
  have hparse := parseVendor_version_two ParseString p ctx vendorID p.consent parsedConsent
    vendorList hdecode hversion hfetch
  rw [hentry] at hparse
  simp [allowSync, hconsent, hparse, hfree]

/-- Witness of the amended C18: vendor 7 is listed, the decoded object does
not even expose the TCF2 metadata, and the sync is allowed. -/
theorem allowSync_not_enforced_witness :
    allowSync untypedDecoder { sampleImpl SignalYes "c" with cfg := purposeOneFreeConfig }
        ⟨0⟩ 7 false
      = (true, none) :=
  allowSync_not_enforced untypedDecoder
    { sampleImpl SignalYes "c" with cfg := purposeOneFreeConfig } ⟨0⟩ 7 false untypedParsed
    (sampleVendorList vendorFalse) vendorFalse (by decide) rfl rfl rfl rfl rfl

/-- C19 as stated fails: the decoded object reports format version 2 and
fails the type assertion, vendor 7 is listed; with enforcement disabled
`allowActivities` returns `(AllowBidRequestOnly, nil)`, and with purpose 1 not
enforced `allowSync` returns `(true, nil)`: no error in either case. -/
theorem untyped_consent_counterexample :
    untypedParsed.Version = 2 ∧
      untypedParsed.asConsentMetadata.isNone = true ∧
      allowActivities untypedDecoder
        { sampleImpl SignalYes "c" with cfg := { sampleConfig with IsEnabled := false } }
        ⟨0⟩ 7 "bidderA" false
        = (AllowBidRequestOnly, none) ∧
      allowSync untypedDecoder { sampleImpl SignalYes "c" with cfg := purposeOneFreeConfig }
        ⟨0⟩ 7 false
        = (true, none) :=
  ⟨rfl, rfl, by decide, by decide⟩

/-- C19 amended: when the decoded object reports format version 2 and fails
the type assertion to `tcf2.ConsentMetadata`, and the vendor-list fetch
succeeds: `allowActivities` returns the default permissions with the error
"Unable to access TCF2 parsed consent" if the list has an entry for the vendor
id or the call is under weak enforcement, and enforcement is enabled;
`allowSync` returns `false` with that error if the consent string is
non-empty, the list has an entry for the vendor id and purpose 1 is
enforced. -/
theorem untyped_consent_error (ParseString : ConsentDecoder) (p : permissionsImpl)
    (ctx : Context) (vendorID : Nat) (bidder : String)
    (weakVendorEnforcement vendorException : Bool)
    (parsedConsent : VendorConsents) (vendorList : VendorList)
    (hdecode : ParseString p.consent = .ok parsedConsent)
    (hversion : parsedConsent.Version = 2)
    (hmeta : parsedConsent.asConsentMetadata = none)
    (hfetch : p.fetchVendorList ctx parsedConsent.VendorListVersion = .ok vendorList) :
    (((vendorList.Vendor vendorID).isSome = true ∨ weakVendorEnforcement = true) →
        p.cfg.IsEnabled = true →
        allowActivities ParseString p ctx vendorID bidder weakVendorEnforcement
          = (defaultPermissions p, some errUnableToAccess)) ∧
      (p.consent ≠ "" → (vendorList.Vendor vendorID).isSome = true →
        p.cfg.PurposeEnforced 1 = true →
        allowSync ParseString p ctx vendorID vendorException
          = (false, some errUnableToAccess)) := by
  have hparse := parseVendor_version_two ParseString p ctx vendorID p.consent parsedConsent
    vendorList hdecode hversion hfetch
  refine ⟨?_, ?_⟩
  · intro hvendor henabled
    unfold allowActivities
    rw [hparse]
    cases hv : vendorList.Vendor vendorID with
    | some vendor => simp [henabled, hmeta, errUnableToAccess]
    | none =>
      rw [hv] at hvendor
      rcases hvendor with h | h
      · exact absurd h (by simp)
      · subst h
        simp [henabled, hmeta, hversion, errUnableToAccess]
  · intro hconsent hvendor henforced
    unfold allowSync
    rw [hparse]
    cases hv : vendorList.Vendor vendorID with
    | some vendor => simp [hconsent, henforced, hmeta, errUnableToAccess]
    | none =>
      rw [hv] at hvendor
      exact absurd hvendor (by simp)

/-- Witness of the amended C19: vendor 7 listed, enforcement enabled and
purpose 1 enforced. -/
theorem untyped_consent_error_witness :
    allowActivities untypedDecoder (sampleImpl SignalYes "c") ⟨0⟩ 7 "bidderA" false
        = (⟨false, false, false⟩,
            some (GoError.errorString "Unable to access TCF2 parsed consent")) ∧
      allowSync untypedDecoder (sampleImpl SignalYes "c") ⟨0⟩ 7 false
        = (false, some (GoError.errorString "Unable to access TCF2 parsed consent")) :=
  ⟨(untyped_consent_error untypedDecoder (sampleImpl SignalYes "c") ⟨0⟩ 7 "bidderA" false false
      untypedParsed (sampleVendorList vendorFalse) rfl rfl rfl rfl).1 (Or.inl rfl) rfl,
    (untyped_consent_error untypedDecoder (sampleImpl SignalYes "c") ⟨0⟩ 7 "bidderA" false false
      untypedParsed (sampleVendorList vendorFalse) rfl rfl rfl rfl).2 (by decide) rfl rfl⟩

/-- Under weak enforcement `checkPurpose` does not read the vendor capability. -/
theorem checkPurpose_weak_vendor (p q : permissionsImpl) (consent : ConsentMetadata)
    (vendor vendor2 : Vendor) (vendorID purpose : Nat) (enforceVendors vendorException : Bool) :
    checkPurpose p consent vendor vendorID purpose enforceVendors vendorException true
      = checkPurpose q consent vendor2 vendorID purpose enforceVendors vendorException true := by
  simp [checkPurpose, consentEstablished, legitInterestEstablished]

/-- Under weak enforcement the cascade's permissions are those computed with
`vendorTrue`. -/
theorem cascadePermissions_weak_vendor (p : permissionsImpl) (consentMeta : ConsentMetadata)
    (vendor : Vendor) (vendorID : Nat) (bidder : String) :
    cascadePermissions p consentMeta vendor vendorID bidder true
      = cascadePermissions p consentMeta vendorTrue vendorID bidder true := by
  unfold cascadePermissions
  have hchk : ∀ purpose,
      checkPurpose p consentMeta vendor vendorID purpose (p.cfg.PurposeEnforcingVendors purpose)
          (p.cfg.PurposeVendorException purpose bidder) true
        = checkPurpose p consentMeta vendorTrue vendorID purpose
            (p.cfg.PurposeEnforcingVendors purpose)
            (p.cfg.PurposeVendorException purpose bidder) true :=
    fun purpose => checkPurpose_weak_vendor p p consentMeta vendor vendorTrue vendorID purpose _ _
  simp [hchk]

/-- Under weak enforcement, once the consent decodes and the fetch succeeds,
the result of `allowActivities` is determined without the vendor list. -/
theorem allowActivities_weak_closed_form (ParseString : ConsentDecoder) (p : permissionsImpl)
    (ctx : Context) (vendorID : Nat) (bidder : String) (parsedConsent : VendorConsents)
    (vendorList : VendorList)
    (hdecode : ParseString p.consent = .ok parsedConsent)
    (hfetch : p.fetchVendorList ctx parsedConsent.VendorListVersion = .ok vendorList) :
    allowActivities ParseString p ctx vendorID bidder true
      = if parsedConsent.Version ≠ 2 then (defaultPermissions p, none)
        else if p.cfg.IsEnabled = false then (AllowBidRequestOnly, none)
        else
          match parsedConsent.asConsentMetadata with
          | none => (defaultPermissions p, some errUnableToAccess)
          | some consentMeta =>
            (cascadePermissions p consentMeta vendorTrue vendorID bidder true, none) := by
  by_cases hversion : parsedConsent.Version = 2
  · have hparse := parseVendor_version_two ParseString p ctx vendorID p.consent parsedConsent
      vendorList hdecode hversion hfetch
    have hvendor : ∃ vendor, vendorList.Vendor vendorID = some vendor ∨
        (vendorList.Vendor vendorID = none ∧ true = true ∧ parsedConsent.Version = 2 ∧
          vendor = vendorTrue) := by
      cases hv : vendorList.Vendor vendorID with
      | some vendor => exact ⟨vendor, Or.inl rfl⟩
      | none => exact ⟨vendorTrue, Or.inr ⟨rfl, rfl, hversion, rfl⟩⟩
    obtain ⟨vendor, hvendor⟩ := hvendor
    by_cases henabled : p.cfg.IsEnabled = true
    · cases hmeta : parsedConsent.asConsentMetadata with
      | none =>
        unfold allowActivities
        rw [hparse]
        cases hv : vendorList.Vendor vendorID <;>
          simp [hversion, henabled, hmeta, errUnableToAccess]
      | some consentMeta =>
        rw [allowActivities_eq_cascade ParseString p ctx vendorID bidder true parsedConsent
          (vendorList.Vendor vendorID) vendor consentMeta hparse hvendor henabled hmeta,
          cascadePermissions_weak_vendor]
        simp [hversion, henabled]
    · have hdisabled : p.cfg.IsEnabled = false := by simpa using henabled
      unfold allowActivities
      rw [hparse]
      cases hv : vendorList.Vendor vendorID <;> simp [hversion, hdisabled]
  · have hparse : parseVendor ParseString p ctx vendorID p.consent = .ok (parsedConsent, none) := by
      simp [parseVendor, hdecode, hversion]
    unfold allowActivities
    rw [hparse]
    simp [hversion]

/-- C20: under weak enforcement the outcome does not depend on the vendor
capability.  `checkPurpose` with `weakVendorEnforcement = true` returns the
same value for any two vendor capabilities; and for any two fetchers whose
fetch succeeds, so for any two vendor lists, whether they hold an entry with
arbitrary flags for the vendor id or none (then `vendorTrue` is substituted),
`allowActivities` with `weakVendorEnforcement = true` returns the same
permissions and error. -/
theorem weak_enforcement_vendor_independent (ParseString : ConsentDecoder)
    (p : permissionsImpl) (ctx : Context) (vendorID : Nat) (bidder : String)
    (parsedConsent : VendorConsents) (fetcher1 fetcher2 : VendorListFetcher)
    (vendorList1 vendorList2 : VendorList)
    (hdecode : ParseString p.consent = .ok parsedConsent)
    (hfetch1 : fetcher1 ctx parsedConsent.VendorListVersion = .ok vendorList1)
    (hfetch2 : fetcher2 ctx parsedConsent.VendorListVersion = .ok vendorList2) :
    allowActivities ParseString { p with fetchVendorList := fetcher1 } ctx vendorID bidder true
        = allowActivities ParseString { p with fetchVendorList := fetcher2 } ctx vendorID bidder
            true ∧
      ∀ (consent : ConsentMetadata) (vendor1 vendor2 : Vendor) (purpose : Nat)
        (enforceVendors vendorException : Bool),
        checkPurpose p consent vendor1 vendorID purpose enforceVendors vendorException true
          = checkPurpose p consent vendor2 vendorID purpose enforceVendors vendorException
              true := by
  refine ⟨?_, ?_⟩
  · rw [allowActivities_weak_closed_form ParseString { p with fetchVendorList := fetcher1 } ctx
        vendorID bidder parsedConsent vendorList1 hdecode hfetch1,
      allowActivities_weak_closed_form ParseString { p with fetchVendorList := fetcher2 } ctx
        vendorID bidder parsedConsent vendorList2 hdecode hfetch2]
    rfl
  · intro consent vendor1 vendor2 purpose enforceVendors vendorException
    exact checkPurpose_weak_vendor p p consent vendor1 vendor2 vendorID purpose enforceVendors
      vendorException

/-- Witness of C20: vendor 7 listed once with an entry that claims nothing
and once with one that claims everything; vendors are enforced and purpose 5
is consented. -/
theorem weak_enforcement_vendor_independent_witness :
    allowActivities (acceptingDecoder purposeFiveConsent)
        { sampleImpl SignalYes "c" with
          fetchVendorList := fun _ _ => .ok (sampleVendorList vendorFalse) }
        ⟨0⟩ 7 "bidderA" true
      = allowActivities (acceptingDecoder purposeFiveConsent)
          { sampleImpl SignalYes "c" with
            fetchVendorList := fun _ _ => .ok (sampleVendorList vendorTrue) }
          ⟨0⟩ 7 "bidderA" true :=
  (weak_enforcement_vendor_independent (acceptingDecoder purposeFiveConsent)
    (sampleImpl SignalYes "c") ⟨0⟩ 7 "bidderA" (sampleParsed purposeFiveConsent)
    (fun _ _ => .ok (sampleVendorList vendorFalse))
    (fun _ _ => .ok (sampleVendorList vendorTrue))
    (sampleVendorList vendorFalse) (sampleVendorList vendorTrue) rfl rfl rfl).1

end Gdpr
